import Mathlib

/-!
Shallow embedding of the docking-box estimation logic of the
AutodockScript repository, together with proofs of the spec's claims.

Coordinates are modelled as exact rationals (`ℚ`); the Python floats are
idealised.  Pure computations are translated function-by-function from:
  * `Build_center_receptor.py` (`process_csv` core),
  * `script_run.py` / `random_run_script.py`
    (`estimate_docking_box_from_pdbqt`, `build_box_for_receptor`),
  * `autodock_script.py`
    (`pick_ligand_group`, `compute_site_box_from_receptor`).
File I/O and logging are outside the embedding: each function receives the
already-parsed content it reads, and a `print` warning followed by a
default return value is modelled as just the returned value.
-/

namespace AutodockBox

/-- A 3-D coordinate `(x, y, z)`. -/
abbrev Point3 := ℚ × ℚ × ℚ

/-- The estimator's output record, as written by
`Build_center_receptor.process_csv` (lines 104-108):
center, size and the number of points used. -/
structure Box where
  center : Point3
  size : Point3
  n_points : ℕ
deriving DecidableEq

/-- The x components of a point list. -/
def xsOf (l : List Point3) : List ℚ := l.map (fun p => p.1)

/-- The y components of a point list. -/
def ysOf (l : List Point3) : List ℚ := l.map (fun p => p.2.1)

/-- The z components of a point list. -/
def zsOf (l : List Point3) : List ℚ := l.map (fun p => p.2.2)

/-- `numpy` `arr.mean(axis=0)` on one axis: sum divided by length
(callers only use it on non-empty lists). -/
def meanQ (l : List ℚ) : ℚ := l.sum / l.length

/-- `numpy` `arr.min(axis=0)` on one axis (0 on the empty list, which
callers rule out). -/
def listMin : List ℚ → ℚ
  | [] => 0
  | x :: xs => xs.foldl min x

/-- `numpy` `arr.max(axis=0)` on one axis (0 on the empty list, which
callers rule out). -/
def listMax : List ℚ → ℚ
  | [] => 0
  | x :: xs => xs.foldl max x

/-- The componentwise mean of a point list. -/
def meanP (l : List Point3) : Point3 :=
  (meanQ (xsOf l), meanQ (ysOf l), meanQ (zsOf l))

/-- Core box computation of `Build_center_receptor.process_csv`
(lines 92-107), with the module constants `PAD`, `MIN_SIZE`, `FORCE_CUBE`
exposed as parameters; the specification names this operation
`estimate_from_points`.  Steps: mean → axis-aligned bounding box →
`size = (max - min) + 2*pad` → elementwise clamp to `minSize` →
optional cube forcing.  The empty list yields no box. -/
def estimate_from_points (pts : List Point3) (pad minSize : ℚ)
    (forceCube : Bool) : Option Box :=
  if pts = [] then none
  else
    let sx := max (listMax (xsOf pts) - listMin (xsOf pts) + 2 * pad) minSize
    let sy := max (listMax (ysOf pts) - listMin (ysOf pts) + 2 * pad) minSize
    let sz := max (listMax (zsOf pts) - listMin (zsOf pts) + 2 * pad) minSize
    let s : Point3 :=
      if forceCube then
        (max (max sx sy) sz, max (max sx sy) sz, max (max sx sy) sz)
      else (sx, sy, sz)
    some { center := meanP pts, size := s, n_points := pts.length }

/-- `PAD = 3.0` in `Build_center_receptor.py`. -/
def PAD : ℚ := 3

/-- `MIN_SIZE = 16.0` in `Build_center_receptor.py`. -/
def MIN_SIZE : ℚ := 16

/-- `FORCE_CUBE = True` in `Build_center_receptor.py`. -/
def FORCE_CUBE : Bool := true

/-- Python `round(q, 3)` idealised on rationals: round to the nearest
multiple of `1/1000` (tie-breaking differs from Python's
round-half-to-even, which no claim depends on). -/
def round3 (q : ℚ) : ℚ := (round (1000 * q) : ℤ) / 1000

/-- Componentwise `round(·, 3)` of one coordinate, as in
`Build_center_receptor.py` line 91. -/
def round3P (p : Point3) : Point3 := (round3 p.1, round3 p.2.1, round3 p.2.2)

/-- `Build_center_receptor.process_csv` from the already-parsed coordinate
list onward (lines 86-108): reject an empty list, deduplicate the
coordinates rounded to 3 decimals (the Python set comprehension;
`List.dedup` produces the same distinct collection, whose order does not
matter since mean/min/max and the count are order-insensitive), then run
the core computation with `PAD`, `MIN_SIZE` and `FORCE_CUBE`.  Returning
`none` models the `return None` / warn-and-skip path. -/
def process_csv (coords : List Point3) : Option Box :=
  if coords = [] then none
  else estimate_from_points ((coords.map round3P).dedup) PAD MIN_SIZE FORCE_CUBE

/-! ### Helper lemmas on `listMin`, `listMax`, `meanQ` -/

theorem foldl_min_mem (x : ℚ) (xs : List ℚ) : xs.foldl min x ∈ x :: xs := by
  induction xs generalizing x with
  | nil => simp
  | cons y ys ih =>
    rcases List.mem_cons.1 (ih (min x y)) with h1 | h1
    · rw [List.foldl_cons, h1]
      rcases min_choice x y with hc | hc <;> rw [hc] <;> simp
    · rw [List.foldl_cons]
      exact List.mem_cons.2 (Or.inr (List.mem_cons.2 (Or.inr h1)))

theorem foldl_min_le (x : ℚ) (xs : List ℚ) :
    ∀ a ∈ x :: xs, xs.foldl min x ≤ a := by
  induction xs generalizing x with
  | nil => intro a ha; simp at ha; simp [ha]
  | cons y ys ih =>
    intro a ha
    rw [List.foldl_cons]
    have hbase : ys.foldl min (min x y) ≤ min x y :=
      ih (min x y) (min x y) (List.mem_cons_self _ _)
    rcases List.mem_cons.1 ha with h1 | h1
    · rw [h1]; exact hbase.trans (min_le_left _ _)
    · rcases List.mem_cons.1 h1 with h2 | h2
      · rw [h2]; exact hbase.trans (min_le_right _ _)
      · exact ih (min x y) a (List.mem_cons.2 (Or.inr h2))

theorem foldl_max_mem (x : ℚ) (xs : List ℚ) : xs.foldl max x ∈ x :: xs := by
  induction xs generalizing x with
  | nil => simp
  | cons y ys ih =>
    rcases List.mem_cons.1 (ih (max x y)) with h1 | h1
    · rw [List.foldl_cons, h1]
      rcases max_choice x y with hc | hc <;> rw [hc] <;> simp
    · rw [List.foldl_cons]
      exact List.mem_cons.2 (Or.inr (List.mem_cons.2 (Or.inr h1)))

theorem foldl_le_max (x : ℚ) (xs : List ℚ) :
    ∀ a ∈ x :: xs, a ≤ xs.foldl max x := by
  induction xs generalizing x with
  | nil => intro a ha; simp at ha; simp [ha]
  | cons y ys ih =>
    intro a ha
    rw [List.foldl_cons]
    have hbase : max x y ≤ ys.foldl max (max x y) :=
      ih (max x y) (max x y) (List.mem_cons_self _ _)
    rcases List.mem_cons.1 ha with h1 | h1
    · rw [h1]; exact (le_max_left _ _).trans hbase
    · rcases List.mem_cons.1 h1 with h2 | h2
      · rw [h2]; exact (le_max_right _ _).trans hbase
      · exact ih (max x y) a (List.mem_cons.2 (Or.inr h2))

theorem listMin_mem {l : List ℚ} (h : l ≠ []) : listMin l ∈ l := by
  cases l with
  | nil => exact absurd rfl h
  | cons x xs => exact foldl_min_mem x xs

theorem listMin_le {l : List ℚ} : ∀ a ∈ l, listMin l ≤ a := by
  cases l with
  | nil => intro a ha; simp at ha
  | cons x xs => exact foldl_min_le x xs

theorem listMax_mem {l : List ℚ} (h : l ≠ []) : listMax l ∈ l := by
  cases l with
  | nil => exact absurd rfl h
  | cons x xs => exact foldl_max_mem x xs

theorem le_listMax {l : List ℚ} : ∀ a ∈ l, a ≤ listMax l := by
  cases l with
  | nil => intro a ha; simp at ha
  | cons x xs => exact foldl_le_max x xs

theorem listMin_perm {l₁ l₂ : List ℚ} (h : l₁.Perm l₂) :
    listMin l₁ = listMin l₂ := by
  cases l₁ with
  | nil =>
    have : l₂ = [] := h.symm.eq_nil
    simp [this]
  | cons x xs =>
    have hne₁ : (x :: xs) ≠ ([] : List ℚ) := by simp
    have hne₂ : l₂ ≠ [] := by
      intro hc; subst hc; exact hne₁ h.eq_nil
    apply le_antisymm
    · exact listMin_le _ (h.mem_iff.2 (listMin_mem hne₂))
    · exact listMin_le _ (h.mem_iff.1 (listMin_mem hne₁))

theorem listMax_perm {l₁ l₂ : List ℚ} (h : l₁.Perm l₂) :
    listMax l₁ = listMax l₂ := by
  cases l₁ with
  | nil =>
    have : l₂ = [] := h.symm.eq_nil
    simp [this]
  | cons x xs =>
    have hne₁ : (x :: xs) ≠ ([] : List ℚ) := by simp
    have hne₂ : l₂ ≠ [] := by
      intro hc; subst hc; exact hne₁ h.eq_nil
    apply le_antisymm
    · exact le_listMax _ (h.mem_iff.1 (listMax_mem hne₁))
    · exact le_listMax _ (h.mem_iff.2 (listMax_mem hne₂))

theorem meanQ_perm {l₁ l₂ : List ℚ} (h : l₁.Perm l₂) : meanQ l₁ = meanQ l₂ := by
  unfold meanQ
  rw [h.sum_eq, h.length_eq]

theorem meanP_perm {l₁ l₂ : List Point3} (h : l₁.Perm l₂) : meanP l₁ = meanP l₂ := by
  unfold meanP xsOf ysOf zsOf
  rw [meanQ_perm (h.map _), meanQ_perm (h.map _), meanQ_perm (h.map _)]

/-- The whole result of the core estimator is invariant under permutation
of the input points. -/
theorem estimate_from_points_perm {l₁ l₂ : List Point3} (h : l₁.Perm l₂)
    (pad minSize : ℚ) (forceCube : Bool) :
    estimate_from_points l₁ pad minSize forceCube =
      estimate_from_points l₂ pad minSize forceCube := by
  unfold estimate_from_points
  have hx : (xsOf l₁).Perm (xsOf l₂) := h.map _
  have hy : (ysOf l₁).Perm (ysOf l₂) := h.map _
  have hz : (zsOf l₁).Perm (zsOf l₂) := h.map _
  by_cases h1 : l₁ = []
  · have h2 : l₂ = [] := by subst h1; exact h.symm.eq_nil
    simp [h1, h2]
  · have h2 : l₂ ≠ [] := by
      intro hc; subst hc; exact h1 h.eq_nil
    simp only [h1, h2, if_false]
    rw [listMin_perm hx, listMax_perm hx, listMin_perm hy, listMax_perm hy,
      listMin_perm hz, listMax_perm hz, meanP_perm h, h.length_eq]

/-! ### String primitives

Python's `str.upper()`, `str.strip()` and `str.startswith("H")` are
modelled on the character list of a `String` (ASCII suffices for residue
and atom names), keeping every definition kernel-executable. -/

/-- Python `str.upper()` (ASCII). -/
def strUpper (s : String) : String := ⟨s.data.map Char.toUpper⟩

/-- Python `str.strip()`: drop leading and trailing whitespace. -/
def strStrip (s : String) : String :=
  ⟨((s.data.dropWhile Char.isWhitespace).reverse.dropWhile
      Char.isWhitespace).reverse⟩

/-- Python `s.startswith("H")`: the first character is `H`. -/
def startsWithH (s : String) : Bool :=
  match s.data with
  | [] => false
  | c :: _ => c == 'H'

/-! ### `script_run.py` / `random_run_script.py` -/

/-- One line of a PDBQT file, as far as
`script_run.estimate_docking_box_from_pdbqt` inspects it:
whether it starts with `ATOM` or `HETATM`, the stripped atom-name field
(columns 12:16), and `some` coordinate exactly when columns 30:54 parse as
three floats (the `try/except ValueError` that skips a malformed line is
modelled by `none`). -/
structure PdbqtLine where
  isAtomRecord : Bool
  atomName : String
  coord : Option Point3
deriving DecidableEq

/-- The heavy-atom coordinate extraction loop of
`script_run.estimate_docking_box_from_pdbqt` (lines 38-49): keep the
coordinates of `ATOM`/`HETATM` lines whose atom name does not start with
`H` and whose coordinate columns parse. -/
def parse_heavy_coords (lines : List PdbqtLine) : List Point3 :=
  lines.filterMap (fun l =>
    if l.isAtomRecord && !(startsWithH l.atomName) then l.coord else none)

/-- `script_run.estimate_docking_box_from_pdbqt` (lines 36-60; identical in
`random_run_script.py` lines 38-66): with no parseable heavy-atom
coordinate, return center `(0,0,0)` and size `(25,25,25)` (the `[warn]`
print is I/O and not modelled); otherwise center is the mean and size is
`(max - min) + buffer` per axis — the buffer is added once and no
minimum-size clamp is applied.  The default buffer is `5.0`. -/
def estimate_docking_box_from_pdbqt (lines : List PdbqtLine) (buffer : ℚ) :
    Point3 × Point3 :=
  let pts := parse_heavy_coords lines
  if pts = [] then ((0, 0, 0), (25, 25, 25))
  else
    (meanP pts,
     (listMax (xsOf pts) - listMin (xsOf pts) + buffer,
      listMax (ysOf pts) - listMin (ysOf pts) + buffer,
      listMax (zsOf pts) - listMin (zsOf pts) + buffer))

/-- `script_run.build_box_for_receptor` (lines 63-74; identical in
`random_run_script.py` lines 69-80 with `AUTO_BOX_SIZE = (25,25,25)`).
The loaded `Center_boxes.json` mapping (`BINDING_CENTERS`) is modelled as
an association list keyed by receptor stem.  On a registry hit the stored
center and size are returned verbatim; on a miss only the center of the
fresh estimate is kept and the size is the fixed `(25,25,25)`. -/
def build_box_for_receptor (registry : List (String × Box)) (recStem : String)
    (lines : List PdbqtLine) : Point3 × Point3 :=
  match registry.lookup recStem with
  | some data => (data.center, data.size)
  | none => ((estimate_docking_box_from_pdbqt lines 5).1, (25, 25, 25))

/-! ### `autodock_script.py` -/

/-- A HETATM group key `(resname, chain, resseq)` as built by
`autodock_script.parse_pdbqt_het_groups`. -/
structure GroupKey where
  resn : String
  chain : String
  resi : String
deriving DecidableEq

/-- The HETATM groups of a receptor, in dict insertion order:
each key with its coordinate list. -/
abbrev HetGroups := List (GroupKey × List Point3)

/-- `EXCLUDE_RESN` of `autodock_script.py` (lines 28-34): common
solvents/ions/cofactors excluded from ligand auto-detection. -/
def EXCLUDE_RESN : List String :=
  ["HOH", "WAT", "DOD", "TP3", "H2O",
   "NA", "K", "CL", "CA", "MG", "MN", "ZN", "FE", "CU", "CD", "NI",
   "SO4", "PO4", "NO3", "CO3", "IOD", "BR", "I", "F",
   "GOL", "PG4", "PEG", "EDO", "MPD", "BME", "TLA",
   "NAG", "NDG", "MAN", "BMA", "GAL", "FUC", "GLC", "GLO", "SUC", "HEM",
   "HEC", "NAP"]

/-- The two `ValueError`s raised by `autodock_script.pick_ligand_group`:
no HETATM groups at all, or a requested residue name not present. -/
inductive PickError where
  | noGroups
  | residueNotFound
deriving DecidableEq

/-- Python `max(candidates, key=lambda kv: len(kv[1]))` over a non-empty
list `g :: rest`: the first element with the largest coordinate count
(Python `max` keeps the earliest maximum, hence the strict comparison). -/
def pickBest (g : GroupKey × List Point3) (rest : HetGroups) :
    GroupKey × List Point3 :=
  rest.foldl (fun b c => if b.2.length < c.2.length then c else b) g

/-- The `(center, key, n_atoms)` triple `pick_ligand_group` returns for a
chosen group: the (float32-idealised) mean of its coordinates, its key and
its atom count. -/
def groupResult (g : GroupKey × List Point3) : Point3 × GroupKey × ℕ :=
  (meanP g.2, g.1, g.2.length)

/-- The normalisation `str(target_resn).strip().upper()` applied when a
target residue name is given; `none` behaves like the empty string
(falsy in the `if target_resn:` guards). -/
def normTarget (targetResn : Option String) : String :=
  strUpper (strStrip (targetResn.getD ""))

/-- `autodock_script.pick_ligand_group` (lines 68-106).  Raising
`ValueError` is modelled by `Except.error`.  If the (normalised) target
name is non-empty, pick the largest group with exactly that residue name,
erroring when none matches; otherwise auto-detect: pick the largest group
whose residue name is not in `EXCLUDE_RESN`, falling back to the largest
group overall when every group is excluded. -/
def pick_ligand_group (groups : HetGroups) (targetResn : Option String) :
    Except PickError (Point3 × GroupKey × ℕ) :=
  if groups = [] then .error .noGroups
  else if normTarget targetResn ≠ "" then
    match groups.filter (fun g => g.1.resn == normTarget targetResn) with
    | [] => .error .residueNotFound
    | g :: gs => .ok (groupResult (pickBest g gs))
  else
    match groups.filter (fun g => !(EXCLUDE_RESN.contains g.1.resn)) with
    | [] =>
      match groups with
      | [] => .error .noGroups
      | g :: gs => .ok (groupResult (pickBest g gs))
    | g :: gs => .ok (groupResult (pickBest g gs))

/-- `FIXED_EDGE = 25.0` in `autodock_script.py` (line 25). -/
def FIXED_EDGE : ℚ := 25

/-- `autodock_script.compute_site_box_from_receptor` (lines 109-119),
from the parsed HETATM groups onward: select the ligand group and pair its
center with the fixed cube `(fixed_edge, fixed_edge, fixed_edge)`. -/
def compute_site_box_from_receptor (groups : HetGroups)
    (ligResname : Option String) (fixedEdge : ℚ) :
    Except PickError (Point3 × Point3 × GroupKey × ℕ) :=
  match pick_ligand_group groups ligResname with
  | .error e => .error e
  | .ok (center, key, n) => .ok (center, (fixedEdge, fixedEdge, fixedEdge), key, n)

/-! ### Claims about the core estimator -/

/-- **C1**: for every non-empty coordinate set, `estimate_from_points`
returns a size whose every axis equals the elementwise maximum of
`(max - min) + 2*pad` and `min_size` (stated for the pre-cube-forcing
size, i.e. `forceCube = false`); in particular, for either cube setting,
every axis of the returned size is `≥ min_size` and
`≥ (max - min) + 2*pad` on that axis, so the min-size clamp only ever
raises, never lowers, the raw bounding-size-plus-padding value. -/
theorem claim_C1 (pts : List Point3) (pad minSize : ℚ) (h : pts ≠ []) :
    (∃ b, estimate_from_points pts pad minSize false = some b ∧
       b.size = (max (listMax (xsOf pts) - listMin (xsOf pts) + 2 * pad) minSize,
                 max (listMax (ysOf pts) - listMin (ysOf pts) + 2 * pad) minSize,
                 max (listMax (zsOf pts) - listMin (zsOf pts) + 2 * pad) minSize)) ∧
    (∀ forceCube : Bool, ∃ b,
       estimate_from_points pts pad minSize forceCube = some b ∧
       minSize ≤ b.size.1 ∧ minSize ≤ b.size.2.1 ∧ minSize ≤ b.size.2.2 ∧
       listMax (xsOf pts) - listMin (xsOf pts) + 2 * pad ≤ b.size.1 ∧
       listMax (ysOf pts) - listMin (ysOf pts) + 2 * pad ≤ b.size.2.1 ∧
       listMax (zsOf pts) - listMin (zsOf pts) + 2 * pad ≤ b.size.2.2) := by
  simp only [estimate_from_points, if_neg h]
  constructor
  · exact ⟨_, rfl, rfl⟩
  · intro fc
    cases fc with
    | false =>
      exact ⟨_, rfl, le_max_right _ _, le_max_right _ _, le_max_right _ _,
        le_max_left _ _, le_max_left _ _, le_max_left _ _⟩
    | true =>
      refine ⟨_, rfl, ?_, ?_, ?_, ?_, ?_, ?_⟩
      · exact (le_max_right _ _).trans ((le_max_left _ _).trans (le_max_left _ _))
      · exact (le_max_right _ _).trans ((le_max_left _ _).trans (le_max_left _ _))
      · exact (le_max_right _ _).trans ((le_max_left _ _).trans (le_max_left _ _))
      · exact (le_max_left _ _).trans ((le_max_left _ _).trans (le_max_left _ _))
      · exact (le_max_left _ _).trans ((le_max_right _ _).trans (le_max_left _ _))
      · exact (le_max_left _ _).trans (le_max_right _ _)

/-- Witness for C1, at the spec's example point set
`[(0,0,0), (10,0,0), (0,10,0), (0,0,10)]` with `pad = 3`,
`min_size = 16`. -/
theorem claim_C1_witness :
    (∃ b, estimate_from_points
        [((0 : ℚ), (0 : ℚ), (0 : ℚ)), (10, 0, 0), (0, 10, 0), (0, 0, 10)]
        3 16 false = some b ∧
       b.size =
        (max (listMax (xsOf [((0 : ℚ), (0 : ℚ), (0 : ℚ)), (10, 0, 0), (0, 10, 0), (0, 0, 10)]) -
              listMin (xsOf [((0 : ℚ), (0 : ℚ), (0 : ℚ)), (10, 0, 0), (0, 10, 0), (0, 0, 10)]) + 2 * 3) 16,
         max (listMax (ysOf [((0 : ℚ), (0 : ℚ), (0 : ℚ)), (10, 0, 0), (0, 10, 0), (0, 0, 10)]) -
              listMin (ysOf [((0 : ℚ), (0 : ℚ), (0 : ℚ)), (10, 0, 0), (0, 10, 0), (0, 0, 10)]) + 2 * 3) 16,
         max (listMax (zsOf [((0 : ℚ), (0 : ℚ), (0 : ℚ)), (10, 0, 0), (0, 10, 0), (0, 0, 10)]) -
              listMin (zsOf [((0 : ℚ), (0 : ℚ), (0 : ℚ)), (10, 0, 0), (0, 10, 0), (0, 0, 10)]) + 2 * 3) 16)) ∧
    (∀ forceCube : Bool, ∃ b,
       estimate_from_points
        [((0 : ℚ), (0 : ℚ), (0 : ℚ)), (10, 0, 0), (0, 10, 0), (0, 0, 10)]
        3 16 forceCube = some b ∧
       16 ≤ b.size.1 ∧ 16 ≤ b.size.2.1 ∧ 16 ≤ b.size.2.2 ∧
       listMax (xsOf [((0 : ℚ), (0 : ℚ), (0 : ℚ)), (10, 0, 0), (0, 10, 0), (0, 0, 10)]) -
         listMin (xsOf [((0 : ℚ), (0 : ℚ), (0 : ℚ)), (10, 0, 0), (0, 10, 0), (0, 0, 10)]) + 2 * 3 ≤ b.size.1 ∧
       listMax (ysOf [((0 : ℚ), (0 : ℚ), (0 : ℚ)), (10, 0, 0), (0, 10, 0), (0, 0, 10)]) -
         listMin (ysOf [((0 : ℚ), (0 : ℚ), (0 : ℚ)), (10, 0, 0), (0, 10, 0), (0, 0, 10)]) + 2 * 3 ≤ b.size.2.1 ∧
       listMax (zsOf [((0 : ℚ), (0 : ℚ), (0 : ℚ)), (10, 0, 0), (0, 10, 0), (0, 0, 10)]) -
         listMin (zsOf [((0 : ℚ), (0 : ℚ), (0 : ℚ)), (10, 0, 0), (0, 10, 0), (0, 0, 10)]) + 2 * 3 ≤ b.size.2.2) :=
  claim_C1 [((0 : ℚ), (0 : ℚ), (0 : ℚ)), (10, 0, 0), (0, 10, 0), (0, 0, 10)] 3 16
    (by decide)

/-- **C4**: for the empty point list, the estimator produces no `Box`:
the core returns `none` (the code signals the condition the spec calls
`EmptyInputError` by warning and returning `None`), and so does
`process_csv`. -/
theorem claim_C4 (pad minSize : ℚ) (forceCube : Bool) :
    estimate_from_points [] pad minSize forceCube = none ∧
    process_csv [] = none :=
  ⟨rfl, rfl⟩

/-- **C5**: for every non-empty coordinate set, the center returned by
`estimate_from_points` is the arithmetic mean of the input coordinates
(characterised exactly: `n * center_axis = sum of that axis`), and the
whole result is invariant under any permutation of the input sequence. -/
theorem claim_C5 (pts : List Point3) (pad minSize : ℚ) (forceCube : Bool)
    (h : pts ≠ []) :
    ∃ b, estimate_from_points pts pad minSize forceCube = some b ∧
      (pts.length : ℚ) * b.center.1 = (xsOf pts).sum ∧
      (pts.length : ℚ) * b.center.2.1 = (ysOf pts).sum ∧
      (pts.length : ℚ) * b.center.2.2 = (zsOf pts).sum ∧
      ∀ pts' : List Point3, pts'.Perm pts →
        estimate_from_points pts' pad minSize forceCube =
          estimate_from_points pts pad minSize forceCube := by
  have hn : (pts.length : ℚ) ≠ 0 := by
    have : pts.length ≠ 0 := fun hc => h (List.length_eq_zero.1 hc)
    exact_mod_cast Nat.cast_ne_zero.mpr this
  have hx : (pts.length : ℚ) * meanQ (xsOf pts) = (xsOf pts).sum := by
    unfold meanQ xsOf
    field_simp
  have hy : (pts.length : ℚ) * meanQ (ysOf pts) = (ysOf pts).sum := by
    unfold meanQ ysOf
    field_simp
  have hz : (pts.length : ℚ) * meanQ (zsOf pts) = (zsOf pts).sum := by
    unfold meanQ zsOf
    field_simp
  simp only [estimate_from_points, if_neg h]
  exact ⟨_, rfl, hx, hy, hz,
    fun pts' hp => by
      simpa [estimate_from_points, if_neg h] using
        estimate_from_points_perm hp pad minSize forceCube⟩

/-- Witness for C5 at `[(0,0,0), (10,0,4)]`, `pad = 3`, `min_size = 16`,
`force_cube = true`. -/
theorem claim_C5_witness :
    ∃ b, estimate_from_points [((0 : ℚ), (0 : ℚ), (0 : ℚ)), (10, 0, 4)]
        3 16 true = some b ∧
      (([((0 : ℚ), (0 : ℚ), (0 : ℚ)), (10, 0, 4)] : List Point3).length : ℚ) * b.center.1 =
        (xsOf [((0 : ℚ), (0 : ℚ), (0 : ℚ)), (10, 0, 4)]).sum ∧
      (([((0 : ℚ), (0 : ℚ), (0 : ℚ)), (10, 0, 4)] : List Point3).length : ℚ) * b.center.2.1 =
        (ysOf [((0 : ℚ), (0 : ℚ), (0 : ℚ)), (10, 0, 4)]).sum ∧
      (([((0 : ℚ), (0 : ℚ), (0 : ℚ)), (10, 0, 4)] : List Point3).length : ℚ) * b.center.2.2 =
        (zsOf [((0 : ℚ), (0 : ℚ), (0 : ℚ)), (10, 0, 4)]).sum ∧
      ∀ pts' : List Point3, pts'.Perm [((0 : ℚ), (0 : ℚ), (0 : ℚ)), (10, 0, 4)] →
        estimate_from_points pts' 3 16 true =
          estimate_from_points [((0 : ℚ), (0 : ℚ), (0 : ℚ)), (10, 0, 4)] 3 16 true :=
  claim_C5 [((0 : ℚ), (0 : ℚ), (0 : ℚ)), (10, 0, 4)] 3 16 true (by decide)

/-- **C6**: for every non-empty coordinate set, when `force_cube` is true
the three axes of the returned size are numerically equal, each equal to
the maximum of the three clamped per-axis sizes. -/
theorem claim_C6 (pts : List Point3) (pad minSize : ℚ) (h : pts ≠ []) :
    ∃ b, estimate_from_points pts pad minSize true = some b ∧
      b.size.1 = b.size.2.1 ∧ b.size.2.1 = b.size.2.2 ∧
      b.size.1 =
        max (max (max (listMax (xsOf pts) - listMin (xsOf pts) + 2 * pad) minSize)
                 (max (listMax (ysOf pts) - listMin (ysOf pts) + 2 * pad) minSize))
            (max (listMax (zsOf pts) - listMin (zsOf pts) + 2 * pad) minSize) := by
  simp only [estimate_from_points, if_neg h]
  exact ⟨_, rfl, rfl, rfl, rfl⟩

/-- Witness for C6, at the spec's example point set. -/
theorem claim_C6_witness :
    ∃ b, estimate_from_points
        [((0 : ℚ), (0 : ℚ), (0 : ℚ)), (10, 0, 0), (0, 10, 0), (0, 0, 10)]
        3 16 true = some b ∧
      b.size.1 = b.size.2.1 ∧ b.size.2.1 = b.size.2.2 ∧
      b.size.1 =
        max (max (max (listMax (xsOf [((0 : ℚ), (0 : ℚ), (0 : ℚ)), (10, 0, 0), (0, 10, 0), (0, 0, 10)]) -
                       listMin (xsOf [((0 : ℚ), (0 : ℚ), (0 : ℚ)), (10, 0, 0), (0, 10, 0), (0, 0, 10)]) + 2 * 3) 16)
                 (max (listMax (ysOf [((0 : ℚ), (0 : ℚ), (0 : ℚ)), (10, 0, 0), (0, 10, 0), (0, 0, 10)]) -
                       listMin (ysOf [((0 : ℚ), (0 : ℚ), (0 : ℚ)), (10, 0, 0), (0, 10, 0), (0, 0, 10)]) + 2 * 3) 16))
            (max (listMax (zsOf [((0 : ℚ), (0 : ℚ), (0 : ℚ)), (10, 0, 0), (0, 10, 0), (0, 0, 10)]) -
                  listMin (zsOf [((0 : ℚ), (0 : ℚ), (0 : ℚ)), (10, 0, 0), (0, 10, 0), (0, 0, 10)]) + 2 * 3) 16) :=
  claim_C6 [((0 : ℚ), (0 : ℚ), (0 : ℚ)), (10, 0, 0), (0, 10, 0), (0, 0, 10)] 3 16
    (by decide)

/-! ### Claims about `build_box_for_receptor` -/

/-- **C2**: for every receptor identifier with an entry in the loaded
`Center_boxes.json` registry, `build_box_for_receptor` returns that
entry's stored center and size unchanged, for any receptor file content
whatsoever — no fresh computation from the receptor's coordinates enters
the result. -/
theorem claim_C2 (registry : List (String × Box)) (stem : String) (b : Box)
    (h : registry.lookup stem = some b) :
    ∀ lines : List PdbqtLine,
      build_box_for_receptor registry stem lines = (b.center, b.size) := by
  intro lines
  unfold build_box_for_receptor
  rw [h]

/-- Witness for C2: a one-entry registry is returned verbatim even though
the fresh estimate from the receptor's single heavy atom differs. -/
theorem claim_C2_witness :
    build_box_for_receptor
      [("1abc", { center := ((1 : ℚ), (2 : ℚ), (3 : ℚ)),
                  size := ((4 : ℚ), (5 : ℚ), (6 : ℚ)), n_points := 7 })]
      "1abc" [{ isAtomRecord := true, atomName := "C", coord := some (9, 9, 9) }] =
      (((1 : ℚ), (2 : ℚ), (3 : ℚ)), ((4 : ℚ), (5 : ℚ), (6 : ℚ))) ∧
    estimate_docking_box_from_pdbqt
      [{ isAtomRecord := true, atomName := "C", coord := some (9, 9, 9) }] 5 ≠
      (((1 : ℚ), (2 : ℚ), (3 : ℚ)), ((4 : ℚ), (5 : ℚ), (6 : ℚ))) := by
  constructor
  · exact claim_C2
      [("1abc", { center := ((1 : ℚ), (2 : ℚ), (3 : ℚ)),
                  size := ((4 : ℚ), (5 : ℚ), (6 : ℚ)), n_points := 7 })]
      "1abc"
      { center := ((1 : ℚ), (2 : ℚ), (3 : ℚ)),
        size := ((4 : ℚ), (5 : ℚ), (6 : ℚ)), n_points := 7 }
      (by decide)
      [{ isAtomRecord := true, atomName := "C", coord := some (9, 9, 9) }]
  · simp [estimate_docking_box_from_pdbqt, parse_heavy_coords, startsWithH,
      meanP, meanQ, xsOf, ysOf, zsOf, listMin, listMax]

/-- Receptor content used for claim C3: two heavy atoms 50 units apart on
the x axis, so the heavy-atom bounding extent is (50, 0, 0). -/
def c3Lines : List PdbqtLine :=
  [{ isAtomRecord := true, atomName := "C", coord := some (0, 0, 0) },
   { isAtomRecord := true, atomName := "C", coord := some (50, 0, 0) }]

/-- Counterexample to **C3** as stated: with no registry entry and heavy
atoms spanning 50 units on x, the code returns the fixed size
`(25, 25, 25)`, whereas "bounding extent plus the fixed padding (5),
floored at 25" would give 55 on the x axis. -/
theorem claim_C3_counterexample :
    build_box_for_receptor [] "rec" c3Lines = ((25, 0, 0), (25, 25, 25)) ∧
    max (listMax (xsOf (parse_heavy_coords c3Lines)) -
         listMin (xsOf (parse_heavy_coords c3Lines)) + 5) 25 = 55 ∧
    (25 : ℚ) ≠ 55 := by
  refine ⟨?_, ?_, by norm_num⟩
  · simp [build_box_for_receptor, List.lookup, estimate_docking_box_from_pdbqt,
      parse_heavy_coords, startsWithH, meanP, meanQ, xsOf, ysOf, zsOf,
      listMin, listMax, c3Lines]
    norm_num
  · simp [parse_heavy_coords, c3Lines, startsWithH, xsOf, listMin, listMax]
    norm_num

/-- **C3 (amended)**: for every receptor with no registry entry,
`build_box_for_receptor` returns, when at least one heavy-atom coordinate
parses, a box centered at the mean of the parsed heavy-atom coordinates
with the fixed size `(25, 25, 25)` regardless of the bounding extent (the
estimated size is discarded); and when zero heavy-atom coordinates are
parseable, the hardcoded box centered at the origin with the same fixed
edge — in both cases a value is returned (the warning is only logged),
never a fatal error. -/
theorem claim_C3_amended (registry : List (String × Box)) (stem : String)
    (lines : List PdbqtLine) (h : registry.lookup stem = none) :
    (parse_heavy_coords lines ≠ [] →
      build_box_for_receptor registry stem lines =
        (meanP (parse_heavy_coords lines), (25, 25, 25))) ∧
    (parse_heavy_coords lines = [] →
      build_box_for_receptor registry stem lines = ((0, 0, 0), (25, 25, 25))) := by
  unfold build_box_for_receptor
  rw [h]
  unfold estimate_docking_box_from_pdbqt
  constructor
  · intro hne
    simp only [if_neg hne]
  · intro he
    simp only [he, if_pos]

/-- Witness for the amended C3: both the one-heavy-atom-or-more branch
and (vacuously false antecedent aside) the statement instantiate at
`c3Lines` with the empty registry. -/
theorem claim_C3_witness :
    (parse_heavy_coords c3Lines ≠ [] →
      build_box_for_receptor [] "rec2" c3Lines =
        (meanP (parse_heavy_coords c3Lines), (25, 25, 25))) ∧
    (parse_heavy_coords c3Lines = [] →
      build_box_for_receptor [] "rec2" c3Lines = ((0, 0, 0), (25, 25, 25))) :=
  claim_C3_amended [] "rec2" c3Lines rfl

/-! ### Properties of `pickBest` (Python `max` with the atom-count key) -/

theorem pickBest_mem (g : GroupKey × List Point3) (rest : HetGroups) :
    pickBest g rest ∈ g :: rest := by
  unfold pickBest
  induction rest generalizing g with
  | nil => simp
  | cons c cs ih =>
    rw [List.foldl_cons]
    rcases List.mem_cons.1 (ih (if g.2.length < c.2.length then c else g)) with h1 | h1
    · rw [h1]
      by_cases hc : g.2.length < c.2.length
      · rw [if_pos hc]
        exact List.mem_cons.2 (Or.inr (List.mem_cons_self _ _))
      · rw [if_neg hc]
        exact List.mem_cons_self _ _
    · exact List.mem_cons.2 (Or.inr (List.mem_cons.2 (Or.inr h1)))

theorem pickBest_le (g : GroupKey × List Point3) (rest : HetGroups) :
    ∀ a ∈ g :: rest, a.2.length ≤ (pickBest g rest).2.length := by
  unfold pickBest
  induction rest generalizing g with
  | nil => intro a ha; simp at ha; simp [ha]
  | cons c cs ih =>
    intro a ha
    rw [List.foldl_cons]
    have hgle : g.2.length ≤ (if g.2.length < c.2.length then c else g).2.length := by
      by_cases hc : g.2.length < c.2.length
      · rw [if_pos hc]; exact le_of_lt hc
      · rw [if_neg hc]
    have hcle : c.2.length ≤ (if g.2.length < c.2.length then c else g).2.length := by
      by_cases hc : g.2.length < c.2.length
      · rw [if_pos hc]
      · rw [if_neg hc]; exact le_of_not_lt hc
    have hbase := fun z => ih z z (List.mem_cons_self _ _)
    rcases List.mem_cons.1 ha with h1 | h1
    · rw [h1]
      exact hgle.trans (hbase _)
    · rcases List.mem_cons.1 h1 with h2 | h2
      · rw [h2]
        exact hcle.trans (hbase _)
      · exact ih _ a (List.mem_cons.2 (Or.inr h2))

/-- Whenever `pick_ligand_group` succeeds, the returned triple is the
mean/key/count of one of the input groups. -/
theorem pick_ligand_group_sound (groups : HetGroups) (target : Option String)
    (c : Point3) (k : GroupKey) (n : ℕ)
    (h : pick_ligand_group groups target = .ok (c, k, n)) :
    ∃ g ∈ groups, g.1 = k ∧ c = meanP g.2 ∧ n = g.2.length := by
  unfold pick_ligand_group at h
  by_cases hg : groups = []
  · rw [if_pos hg] at h
    exact absurd h (by simp)
  rw [if_neg hg] at h
  by_cases ht : normTarget target ≠ ""
  · rw [if_pos ht] at h
    rcases hf : groups.filter (fun g => g.1.resn == normTarget target) with _ | ⟨g0, gs⟩
    · rw [hf] at h
      exact absurd h (by simp)
    · rw [hf] at h
      simp only [Except.ok.injEq] at h
      refine ⟨pickBest g0 gs, ?_, ?_, ?_, ?_⟩
      · have hm : pickBest g0 gs ∈ g0 :: gs := pickBest_mem g0 gs
        rw [← hf] at hm
        exact (List.mem_filter.1 hm).1
      · exact congrArg (fun t => t.2.1) h
      · exact (congrArg (fun t => t.1) h).symm
      · exact (congrArg (fun t => t.2.2) h).symm
  · rw [if_neg ht] at h
    rcases hf : groups.filter (fun g => !(EXCLUDE_RESN.contains g.1.resn))
        with _ | ⟨g0, gs⟩
    · rw [hf] at h
      rcases hgs : groups with _ | ⟨g1, gs1⟩
      · exact absurd hgs hg
      · rw [hgs] at h
        simp only [Except.ok.injEq] at h
        refine ⟨pickBest g1 gs1, ?_, ?_, ?_, ?_⟩
        · exact pickBest_mem g1 gs1
        · exact congrArg (fun t => t.2.1) h
        · exact (congrArg (fun t => t.1) h).symm
        · exact (congrArg (fun t => t.2.2) h).symm
    · rw [hf] at h
      simp only [Except.ok.injEq] at h
      refine ⟨pickBest g0 gs, ?_, ?_, ?_, ?_⟩
      · have hm : pickBest g0 gs ∈ g0 :: gs := pickBest_mem g0 gs
        rw [← hf] at hm
        exact (List.mem_filter.1 hm).1
      · exact congrArg (fun t => t.2.1) h
      · exact (congrArg (fun t => t.1) h).symm
      · exact (congrArg (fun t => t.2.2) h).symm

/-- **C7**: for every non-empty groups mapping with no target residue
name, auto-detect selection returns a group (as its mean/key/count
triple); when some group's residue name is outside the exclusion set, the
chosen group is non-excluded and has the most atoms among non-excluded
groups; only when every group is excluded is the chosen group instead the
largest group overall. -/
theorem claim_C7 (groups : HetGroups) (h : groups ≠ []) :
    ∃ g ∈ groups,
      pick_ligand_group groups none = .ok (groupResult g) ∧
      ((∃ g0 ∈ groups, EXCLUDE_RESN.contains g0.1.resn = false) →
        EXCLUDE_RESN.contains g.1.resn = false ∧
        ∀ g1 ∈ groups, EXCLUDE_RESN.contains g1.1.resn = false →
          g1.2.length ≤ g.2.length) ∧
      ((∀ g1 ∈ groups, EXCLUDE_RESN.contains g1.1.resn = true) →
        ∀ g1 ∈ groups, g1.2.length ≤ g.2.length) := by
  have hnt : normTarget none = "" := rfl
  unfold pick_ligand_group
  rw [if_neg h, hnt, if_neg (fun hc => hc rfl)]
  rcases hf : groups.filter (fun g => !(EXCLUDE_RESN.contains g.1.resn))
      with _ | ⟨g0, gs⟩
  · rw [hf]
    have hall : ∀ a ∈ groups, EXCLUDE_RESN.contains a.1.resn = true := by
      intro a ha
      have := List.filter_eq_nil_iff.1 hf a ha
      simpa using this
    cases groups with
    | nil => exact absurd rfl h
    | cons g1 gs1 =>
      refine ⟨pickBest g1 gs1, pickBest_mem g1 gs1, rfl, ?_, ?_⟩
      · rintro ⟨g2, hg2, hgex⟩
        rw [hall g2 hg2] at hgex
        exact absurd hgex (by simp)
      · intro _ g2 hg2
        exact pickBest_le g1 gs1 g2 hg2
  · rw [hf]
    have hmemf : pickBest g0 gs ∈
        groups.filter (fun g => !(EXCLUDE_RESN.contains g.1.resn)) := by
      rw [hf]; exact pickBest_mem g0 gs
    have hmem : pickBest g0 gs ∈ groups := (List.mem_filter.1 hmemf).1
    have hnotex : EXCLUDE_RESN.contains (pickBest g0 gs).1.resn = false := by
      have := (List.mem_filter.1 hmemf).2
      simpa using this
    refine ⟨pickBest g0 gs, hmem, rfl, ?_, ?_⟩
    · intro _
      refine ⟨hnotex, ?_⟩
      intro g1 hg1 hex
      have hg1f : g1 ∈ groups.filter (fun g => !(EXCLUDE_RESN.contains g.1.resn)) :=
        List.mem_filter.2 ⟨hg1, by simp only [Bool.not_eq_true']; exact hex⟩
      rw [hf] at hg1f
      exact pickBest_le g0 gs g1 hg1f
    · intro hall
      rw [hall (pickBest g0 gs) hmem] at hnotex
      exact absurd hnotex (by simp)

/-- Witness for C7: three HETATM groups, the largest of which (4 waters)
is excluded, so auto-detect picks the largest non-excluded group (the
3-atom `LIG`), not the 1-atom `MG` and not the excluded 4-atom `HOH`. -/
theorem claim_C7_witness :
    ∃ g ∈ ([({ resn := "HOH", chain := "A", resi := "1" },
              [((0 : ℚ), (0 : ℚ), (0 : ℚ)), (1, 0, 0), (2, 0, 0), (3, 0, 0)]),
            ({ resn := "LIG", chain := "A", resi := "2" },
              [((0 : ℚ), (2 : ℚ), (0 : ℚ)), (0, 4, 0), (0, 6, 0)]),
            ({ resn := "MG", chain := "A", resi := "3" },
              [((5 : ℚ), (5 : ℚ), (5 : ℚ))])] : HetGroups),
      pick_ligand_group
          [({ resn := "HOH", chain := "A", resi := "1" },
              [((0 : ℚ), (0 : ℚ), (0 : ℚ)), (1, 0, 0), (2, 0, 0), (3, 0, 0)]),
           ({ resn := "LIG", chain := "A", resi := "2" },
              [((0 : ℚ), (2 : ℚ), (0 : ℚ)), (0, 4, 0), (0, 6, 0)]),
           ({ resn := "MG", chain := "A", resi := "3" },
              [((5 : ℚ), (5 : ℚ), (5 : ℚ))])] none = .ok (groupResult g) ∧
      ((∃ g0 ∈ ([({ resn := "HOH", chain := "A", resi := "1" },
              [((0 : ℚ), (0 : ℚ), (0 : ℚ)), (1, 0, 0), (2, 0, 0), (3, 0, 0)]),
            ({ resn := "LIG", chain := "A", resi := "2" },
              [((0 : ℚ), (2 : ℚ), (0 : ℚ)), (0, 4, 0), (0, 6, 0)]),
            ({ resn := "MG", chain := "A", resi := "3" },
              [((5 : ℚ), (5 : ℚ), (5 : ℚ))])] : HetGroups),
          EXCLUDE_RESN.contains g0.1.resn = false) →
        EXCLUDE_RESN.contains g.1.resn = false ∧
        ∀ g1 ∈ ([({ resn := "HOH", chain := "A", resi := "1" },
              [((0 : ℚ), (0 : ℚ), (0 : ℚ)), (1, 0, 0), (2, 0, 0), (3, 0, 0)]),
            ({ resn := "LIG", chain := "A", resi := "2" },
              [((0 : ℚ), (2 : ℚ), (0 : ℚ)), (0, 4, 0), (0, 6, 0)]),
            ({ resn := "MG", chain := "A", resi := "3" },
              [((5 : ℚ), (5 : ℚ), (5 : ℚ))])] : HetGroups),
          EXCLUDE_RESN.contains g1.1.resn = false →
          g1.2.length ≤ g.2.length) ∧
      ((∀ g1 ∈ ([({ resn := "HOH", chain := "A", resi := "1" },
              [((0 : ℚ), (0 : ℚ), (0 : ℚ)), (1, 0, 0), (2, 0, 0), (3, 0, 0)]),
            ({ resn := "LIG", chain := "A", resi := "2" },
              [((0 : ℚ), (2 : ℚ), (0 : ℚ)), (0, 4, 0), (0, 6, 0)]),
            ({ resn := "MG", chain := "A", resi := "3" },
              [((5 : ℚ), (5 : ℚ), (5 : ℚ))])] : HetGroups),
          EXCLUDE_RESN.contains g1.1.resn = true) →
        ∀ g1 ∈ ([({ resn := "HOH", chain := "A", resi := "1" },
              [((0 : ℚ), (0 : ℚ), (0 : ℚ)), (1, 0, 0), (2, 0, 0), (3, 0, 0)]),
            ({ resn := "LIG", chain := "A", resi := "2" },
              [((0 : ℚ), (2 : ℚ), (0 : ℚ)), (0, 4, 0), (0, 6, 0)]),
            ({ resn := "MG", chain := "A", resi := "3" },
              [((5 : ℚ), (5 : ℚ), (5 : ℚ))])] : HetGroups),
          g1.2.length ≤ g.2.length) :=
  claim_C7
    [({ resn := "HOH", chain := "A", resi := "1" },
        [((0 : ℚ), (0 : ℚ), (0 : ℚ)), (1, 0, 0), (2, 0, 0), (3, 0, 0)]),
     ({ resn := "LIG", chain := "A", resi := "2" },
        [((0 : ℚ), (2 : ℚ), (0 : ℚ)), (0, 4, 0), (0, 6, 0)]),
     ({ resn := "MG", chain := "A", resi := "3" },
        [((5 : ℚ), (5 : ℚ), (5 : ℚ))])]
    (by decide)

/-- Case-insensitive residue-name match, whitespace-stripped exactly as
the code normalises the requested name (the stored names are produced
already stripped and uppercased by `parse_pdbqt_het_groups`). -/
def ciMatches (resn target : String) : Prop :=
  strUpper (strStrip resn) = strUpper (strStrip target)

instance (r t : String) : Decidable (ciMatches r t) :=
  inferInstanceAs (Decidable (strUpper (strStrip r) = strUpper (strStrip t)))

/-- **C8**: for every non-empty groups mapping whose stored residue names
carry the parser's stripped-uppercase normal form, and a target residue
name that is non-empty after normalisation, `pick_ligand_group` fails
with the residue-not-found error exactly when no group's residue name
matches the target case-insensitively (no silent fallback); and when some
group matches, it returns a matching group with the most atoms among the
matching groups. -/
theorem claim_C8 (groups : HetGroups) (target : String)
    (hg : groups ≠ [])
    (hupper : ∀ g ∈ groups, strUpper (strStrip g.1.resn) = g.1.resn)
    (ht : strUpper (strStrip target) ≠ "") :
    (pick_ligand_group groups (some target) = .error .residueNotFound ↔
      ∀ g ∈ groups, ¬ ciMatches g.1.resn target) ∧
    ((∃ g0 ∈ groups, ciMatches g0.1.resn target) →
      ∃ g ∈ groups, ciMatches g.1.resn target ∧
        pick_ligand_group groups (some target) = .ok (groupResult g) ∧
        ∀ g1 ∈ groups, ciMatches g1.1.resn target → g1.2.length ≤ g.2.length) := by
  have ht2 : normTarget (some target) ≠ "" := ht
  have hmatch : ∀ g ∈ groups,
      ((g.1.resn == normTarget (some target)) = true ↔ ciMatches g.1.resn target) := by
    intro g hgm
    rw [beq_iff_eq]
    unfold ciMatches
    rw [hupper g hgm]
    exact Iff.rfl
  unfold pick_ligand_group
  rw [if_neg hg, if_pos ht2]
  rcases hfe : groups.filter (fun g => g.1.resn == normTarget (some target))
      with _ | ⟨g0, gs⟩
  · rw [hfe]
    have hnone : ∀ g ∈ groups, ¬ ciMatches g.1.resn target := by
      intro g hgm hci
      exact (List.filter_eq_nil_iff.1 hfe g hgm) ((hmatch g hgm).2 hci)
    refine ⟨⟨fun _ => hnone, fun _ => rfl⟩, ?_⟩
    rintro ⟨g0, hg0, hci0⟩
    exact absurd hci0 (hnone g0 hg0)
  · rw [hfe]
    have hmemf : pickBest g0 gs ∈
        groups.filter (fun g => g.1.resn == normTarget (some target)) := by
      rw [hfe]; exact pickBest_mem g0 gs
    have hmem : pickBest g0 gs ∈ groups := (List.mem_filter.1 hmemf).1
    have hci : ciMatches (pickBest g0 gs).1.resn target :=
      (hmatch _ hmem).1 (List.mem_filter.1 hmemf).2
    refine ⟨⟨fun hcontra => absurd hcontra (by simp), fun hall => ?_⟩, ?_⟩
    · exact absurd hci (hall _ hmem)
    · intro _
      refine ⟨pickBest g0 gs, hmem, hci, rfl, ?_⟩
      intro g1 hg1 hci1
      have hg1f : g1 ∈ groups.filter (fun g => g.1.resn == normTarget (some target)) :=
        List.mem_filter.2 ⟨hg1, (hmatch g1 hg1).2 hci1⟩
      rw [hfe] at hg1f
      exact pickBest_le g0 gs g1 hg1f

/-- Witness for C8: target `"lig"` matches the stored `"LIG"` group
case-insensitively; the error case and the maximality obligations are
instantiated on a two-group mapping. -/
theorem claim_C8_witness :
    (pick_ligand_group
        [({ resn := "LIG", chain := "A", resi := "1" },
            [((0 : ℚ), (0 : ℚ), (0 : ℚ)), (2, 0, 0)]),
         ({ resn := "HOH", chain := "A", resi := "2" },
            [((1 : ℚ), (1 : ℚ), (1 : ℚ))])] (some "lig") =
        .error .residueNotFound ↔
      ∀ g ∈ ([({ resn := "LIG", chain := "A", resi := "1" },
            [((0 : ℚ), (0 : ℚ), (0 : ℚ)), (2, 0, 0)]),
         ({ resn := "HOH", chain := "A", resi := "2" },
            [((1 : ℚ), (1 : ℚ), (1 : ℚ))])] : HetGroups),
        ¬ ciMatches g.1.resn "lig") ∧
    ((∃ g0 ∈ ([({ resn := "LIG", chain := "A", resi := "1" },
            [((0 : ℚ), (0 : ℚ), (0 : ℚ)), (2, 0, 0)]),
         ({ resn := "HOH", chain := "A", resi := "2" },
            [((1 : ℚ), (1 : ℚ), (1 : ℚ))])] : HetGroups),
        ciMatches g0.1.resn "lig") →
      ∃ g ∈ ([({ resn := "LIG", chain := "A", resi := "1" },
            [((0 : ℚ), (0 : ℚ), (0 : ℚ)), (2, 0, 0)]),
         ({ resn := "HOH", chain := "A", resi := "2" },
            [((1 : ℚ), (1 : ℚ), (1 : ℚ))])] : HetGroups),
        ciMatches g.1.resn "lig" ∧
        pick_ligand_group
          [({ resn := "LIG", chain := "A", resi := "1" },
              [((0 : ℚ), (0 : ℚ), (0 : ℚ)), (2, 0, 0)]),
           ({ resn := "HOH", chain := "A", resi := "2" },
              [((1 : ℚ), (1 : ℚ), (1 : ℚ))])] (some "lig") =
          .ok (groupResult g) ∧
        ∀ g1 ∈ ([({ resn := "LIG", chain := "A", resi := "1" },
              [((0 : ℚ), (0 : ℚ), (0 : ℚ)), (2, 0, 0)]),
           ({ resn := "HOH", chain := "A", resi := "2" },
              [((1 : ℚ), (1 : ℚ), (1 : ℚ))])] : HetGroups),
          ciMatches g1.1.resn "lig" → g1.2.length ≤ g.2.length) :=
  claim_C8
    [({ resn := "LIG", chain := "A", resi := "1" },
        [((0 : ℚ), (0 : ℚ), (0 : ℚ)), (2, 0, 0)]),
     ({ resn := "HOH", chain := "A", resi := "2" },
        [((1 : ℚ), (1 : ℚ), (1 : ℚ))])]
    "lig" (by decide) (by decide) (by decide)

/-- **C9**: whenever a target or auto-detected ligand group is selectable,
`compute_site_box_from_receptor` (at the configured `FIXED_EDGE`) returns
a box of fixed size `(25, 25, 25)` — no padding, minimum-size clamp or
cube-forcing computation enters the size — whose center is the arithmetic
mean of the selected group's coordinates. -/
theorem claim_C9 (groups : HetGroups) (target : Option String)
    (c : Point3) (k : GroupKey) (n : ℕ)
    (h : pick_ligand_group groups target = .ok (c, k, n)) :
    compute_site_box_from_receptor groups target FIXED_EDGE =
      .ok (c, ((25 : ℚ), (25 : ℚ), (25 : ℚ)), k, n) ∧
    ∃ g ∈ groups, g.1 = k ∧ c = meanP g.2 ∧ n = g.2.length := by
  constructor
  · unfold compute_site_box_from_receptor
    rw [h]
    rfl
  · exact pick_ligand_group_sound groups target c k n h

/-- Witness for C9 at a one-group receptor: the auto-detected `LIG` group
of two atoms gives the fixed 25-cube centered at the group mean. -/
theorem claim_C9_witness :
    compute_site_box_from_receptor
        [({ resn := "LIG", chain := "A", resi := "1" },
            [((0 : ℚ), (0 : ℚ), (0 : ℚ)), (2, 0, 0)])] none FIXED_EDGE =
      .ok (meanP [((0 : ℚ), (0 : ℚ), (0 : ℚ)), (2, 0, 0)],
        ((25 : ℚ), (25 : ℚ), (25 : ℚ)),
        { resn := "LIG", chain := "A", resi := "1" }, 2) ∧
    ∃ g ∈ ([({ resn := "LIG", chain := "A", resi := "1" },
            [((0 : ℚ), (0 : ℚ), (0 : ℚ)), (2, 0, 0)])] : HetGroups),
      g.1 = { resn := "LIG", chain := "A", resi := "1" } ∧
      meanP [((0 : ℚ), (0 : ℚ), (0 : ℚ)), (2, 0, 0)] = meanP g.2 ∧
      2 = g.2.length :=
  claim_C9
    [({ resn := "LIG", chain := "A", resi := "1" },
        [((0 : ℚ), (0 : ℚ), (0 : ℚ)), (2, 0, 0)])]
    none (meanP [((0 : ℚ), (0 : ℚ), (0 : ℚ)), (2, 0, 0)])
    { resn := "LIG", chain := "A", resi := "1" } 2 rfl

/-- **C10**: the CSV-based estimator computes its box from the distinct
list of coordinates rounded to 3 decimals: the result is determined by
that distinct collection alone (so duplicate input points do not affect
it), its center is the mean over the distinct list, and `n_points` is the
count of distinct rounded coordinates — at most, and in the presence of
exact duplicates strictly less than, the number of parsed input
coordinates. -/
theorem claim_C10 (coords : List Point3) (h : coords ≠ []) :
    ∃ b, process_csv coords = some b ∧
      b.n_points = (coords.map round3P).toFinset.card ∧
      b.n_points ≤ coords.length ∧
      (¬ coords.Nodup → b.n_points < coords.length) ∧
      b.center = meanP ((coords.map round3P).dedup) ∧
      ∀ coords' : List Point3, coords' ≠ [] →
        ((coords'.map round3P).dedup).Perm ((coords.map round3P).dedup) →
        process_csv coords' = process_csv coords := by
  have harr : (coords.map round3P).dedup ≠ [] := by
    intro hc
    have h1 : coords.map round3P = [] := (List.dedup_eq_nil _).1 hc
    exact h (List.map_eq_nil_iff.1 h1)
  have hlen : (coords.map round3P).dedup.length ≤ coords.length := by
    have := (List.dedup_sublist (coords.map round3P)).length_le
    simpa using this
  have hlt : ¬ coords.Nodup → (coords.map round3P).dedup.length < coords.length := by
    intro hnd
    have hnd2 : ¬ (coords.map round3P).Nodup :=
      fun hn => hnd (hn.of_map round3P)
    rcases lt_or_eq_of_le hlen with hl | he
    · exact hl
    · exfalso
      have hlm : (coords.map round3P).dedup.length = (coords.map round3P).length := by
        rw [he, List.length_map]
      have := (List.dedup_sublist (coords.map round3P)).eq_of_length hlm
      exact hnd2 (this ▸ List.nodup_dedup (coords.map round3P))
  have hperminv : ∀ coords' : List Point3, coords' ≠ [] →
      ((coords'.map round3P).dedup).Perm ((coords.map round3P).dedup) →
      process_csv coords' = process_csv coords := by
    intro coords' h' hperm
    unfold process_csv
    rw [if_neg h', if_neg h]
    exact estimate_from_points_perm hperm PAD MIN_SIZE FORCE_CUBE
  have hbox : ∃ b, estimate_from_points ((coords.map round3P).dedup) PAD MIN_SIZE FORCE_CUBE
      = some b ∧ b.center = meanP ((coords.map round3P).dedup) ∧
      b.n_points = (coords.map round3P).dedup.length := by
    simp only [estimate_from_points, if_neg harr]
    exact ⟨_, rfl, rfl, rfl⟩
  obtain ⟨b, hb, hbc, hbn⟩ := hbox
  have hpc : process_csv coords = some b := by
    unfold process_csv
    rw [if_neg h]
    exact hb
  refine ⟨b, hpc, ?_, ?_, ?_, hbc, hperminv⟩
  · rw [hbn]
    exact (List.card_toFinset _).symm
  · rw [hbn]
    exact hlen
  · intro hnd
    rw [hbn]
    exact hlt hnd

/-- Witness for C10 at a list with an exact duplicate: three parsed
points, two distinct after rounding/deduplication. -/
theorem claim_C10_witness :
    ∃ b, process_csv [((1 : ℚ), (2 : ℚ), (3 : ℚ)), (1, 2, 3), (4, 5, 6)] = some b ∧
      b.n_points =
        (([((1 : ℚ), (2 : ℚ), (3 : ℚ)), (1, 2, 3), (4, 5, 6)] : List Point3).map
          round3P).toFinset.card ∧
      b.n_points ≤ ([((1 : ℚ), (2 : ℚ), (3 : ℚ)), (1, 2, 3), (4, 5, 6)] : List Point3).length ∧
      (¬ ([((1 : ℚ), (2 : ℚ), (3 : ℚ)), (1, 2, 3), (4, 5, 6)] : List Point3).Nodup →
        b.n_points < ([((1 : ℚ), (2 : ℚ), (3 : ℚ)), (1, 2, 3), (4, 5, 6)] : List Point3).length) ∧
      b.center = meanP ((([((1 : ℚ), (2 : ℚ), (3 : ℚ)), (1, 2, 3), (4, 5, 6)] : List Point3).map
          round3P).dedup) ∧
      ∀ coords' : List Point3, coords' ≠ [] →
        ((coords'.map round3P).dedup).Perm
          ((([((1 : ℚ), (2 : ℚ), (3 : ℚ)), (1, 2, 3), (4, 5, 6)] : List Point3).map
            round3P).dedup) →
        process_csv coords' =
          process_csv [((1 : ℚ), (2 : ℚ), (3 : ℚ)), (1, 2, 3), (4, 5, 6)] :=
  claim_C10 [((1 : ℚ), (2 : ℚ), (3 : ℚ)), (1, 2, 3), (4, 5, 6)] (by decide)

end AutodockBox
